import Mathlib

/-!
Verification development for the File-Monitor repository.

The Digest Engine (`_hash_file`, `_hash_directory`, `hash_data` in
`src/monitor/SHA_hashing.py`) and the Integrity Ledger
(`store_hash_in_sqlite`, `check_stored_hashes`) are shallowly embedded:
file contents are byte lists, directory trees are an inductive type, the
SQLite store is a list of records with an auto-increment counter, and
SHA-256 is implemented executably so concrete scenario digests can be
checked by evaluation.
-/

/-! ## Bytes, hex encoding, UTF-8 -/

abbrev Byte := Nat

def hexChar (n : Nat) : Char :=
  if n < 10 then Char.ofNat (48 + n) else Char.ofNat (87 + n)

/-- Two lowercase hex characters of one byte, as `bytes.hex()` / `hexdigest` emit. -/
def byteHex (b : Byte) : List Char := [hexChar (b / 16 % 16), hexChar (b % 16)]

/-- Hexadecimal rendering of a byte string; model of `hasher.hexdigest()`
applied to the underlying digest bytes. -/
def toHex (bs : List Byte) : String := String.mk ((bs.map byteHex).flatten)

/-- UTF-8 encoding of one character (model of Python `str.encode('utf-8')`). -/
def utf8Char (c : Char) : List Byte :=
  let n := c.toNat
  if n < 128 then [n]
  else if n < 2048 then [192 + n / 64, 128 + n % 64]
  else if n < 65536 then [224 + n / 4096, 128 + n / 64 % 64, 128 + n % 64]
  else [240 + n / 262144, 128 + n / 4096 % 64, 128 + n / 64 % 64, 128 + n % 64]

def encodeUtf8 (s : String) : List Byte := (s.data.map utf8Char).flatten

/-! ## SHA-256 (executable, for the concrete scenario digests) -/

def w32 (n : Nat) : Nat := n % 4294967296

def rotr32 (k x : Nat) : Nat := w32 ((x >>> k) ||| (x <<< (32 - k)))

def ch32 (x y z : Nat) : Nat := (x &&& y) ^^^ ((x ^^^ 4294967295) &&& z)

def maj32 (x y z : Nat) : Nat := (x &&& y) ^^^ (x &&& z) ^^^ (y &&& z)

def bigSigma0 (x : Nat) : Nat := rotr32 2 x ^^^ rotr32 13 x ^^^ rotr32 22 x

def bigSigma1 (x : Nat) : Nat := rotr32 6 x ^^^ rotr32 11 x ^^^ rotr32 25 x

def smallSigma0 (x : Nat) : Nat := rotr32 7 x ^^^ rotr32 18 x ^^^ (x >>> 3)

def smallSigma1 (x : Nat) : Nat := rotr32 17 x ^^^ rotr32 19 x ^^^ (x >>> 10)

def sha256K : Array Nat := #[
  1116352408, 1899447441, 3049323471, 3921009573, 961987163,
  1508970993, 2453635748, 2870763221, 3624381080, 310598401,
  607225278, 1426881987, 1925078388, 2162078206, 2614888103,
  3248222580, 3835390401, 4022224774, 264347078, 604807628,
  770255983, 1249150122, 1555081692, 1996064986, 2554220882,
  2821834349, 2952996808, 3210313671, 3336571891, 3584528711,
  113926993, 338241895, 666307205, 773529912, 1294757372,
  1396182291, 1695183700, 1986661051, 2177026350, 2456956037,
  2730485921, 2820302411, 3259730800, 3345764771, 3516065817,
  3600352804, 4094571909, 275423344, 430227734, 506948616,
  659060556, 883997877, 958139571, 1322822218, 1537002063,
  1747873779, 1955562222, 2024104815, 2227730452, 2361852424,
  2428436474, 2756734187, 3204031479, 3329325298]

def sha256Init : List Nat :=
  [1779033703, 3144134277, 1013904242, 2773480762,
   1359893119, 2600822924, 528734635, 1541459225]

/-- Big-endian byte rendering of `n` in `k` bytes. -/
def bytesBE : Nat → Nat → List Byte
  | 0, _ => []
  | k + 1, n => bytesBE k (n / 256) ++ [n % 256]

/-- Merkle-Damgard padding: append 0x80, zero bytes to 56 mod 64, then the
64-bit big-endian bit length. -/
def sha256Pad (msg : List Byte) : List Byte :=
  msg ++ [128] ++ List.replicate ((119 - msg.length % 64) % 64) 0 ++ bytesBE 8 (msg.length * 8)

/-- Group bytes into big-endian 32-bit words. -/
def toWords : List Byte → List Nat
  | a :: b :: c :: d :: rest => (a * 16777216 + b * 65536 + c * 256 + d) :: toWords rest
  | _ => []

/-- Split a word list into 16-word blocks (`fuel` bounds the recursion). -/
def blocks16F : Nat → List Nat → List (List Nat)
  | 0, _ => []
  | _, [] => []
  | fuel + 1, w :: rest => ((w :: rest).take 16) :: blocks16F fuel ((w :: rest).drop 16)

def blocks16 (l : List Nat) : List (List Nat) := blocks16F l.length l

/-- Extend the 16 block words to the 64-entry message schedule
(`fuel` counts the remaining words to append). -/
def extendSchedule : Nat → Array Nat → Array Nat
  | 0, w => w
  | fuel + 1, w =>
    let i := w.size
    extendSchedule fuel
      (w.push (w32 (smallSigma1 (w.get! (i - 2)) + w.get! (i - 7) + smallSigma0 (w.get! (i - 15)) + w.get! (i - 16))))

/-- The 64 compression rounds (`fuel` counts remaining rounds, `i` the round index). -/
def rounds : Nat → Array Nat → Nat → Nat → Nat → Nat → Nat → Nat → Nat → Nat → Nat → List Nat
  | 0, _, _, a, b, c, d, e, f, g, h => [a, b, c, d, e, f, g, h]
  | fuel + 1, w, i, a, b, c, d, e, f, g, h =>
    let t1 := w32 (h + bigSigma1 e + ch32 e f g + sha256K.get! i + w.get! i)
    let t2 := w32 (bigSigma0 a + maj32 a b c)
    rounds fuel w (i + 1) (w32 (t1 + t2)) a b c (w32 (d + t1)) e f g

def compress (hs : List Nat) (block : List Nat) : List Nat :=
  let w := extendSchedule 48 block.toArray
  let r := rounds 64 w 0 (hs.getD 0 0) (hs.getD 1 0) (hs.getD 2 0) (hs.getD 3 0)
    (hs.getD 4 0) (hs.getD 5 0) (hs.getD 6 0) (hs.getD 7 0)
  (List.zip hs r).map (fun p => w32 (p.1 + p.2))

/-- SHA-256 digest bytes of a byte string. -/
def sha256Digest (msg : List Byte) : List Byte :=
  let hs := (blocks16 (toWords (sha256Pad msg))).foldl compress sha256Init
  (hs.map (bytesBE 4)).flatten

/-! ## Algorithms and the incremental hasher

`hashlib.new(algorithm)` yields a hasher whose `update` calls accumulate a
message and whose `hexdigest` is the hex rendering of the digest of the
accumulated message.  An algorithm is modelled by its digest function on
byte strings; `sha256` is the concrete instance used for the scenario. -/

structure Algorithm where
  digestBytes : List Byte → List Byte

def hexdigest (alg : Algorithm) (msg : List Byte) : String := toHex (alg.digestBytes msg)

def sha256 : Algorithm := ⟨sha256Digest⟩

/-- A `hashlib` hasher: the algorithm plus the bytes fed so far. -/
structure Hasher where
  alg : Algorithm
  buf : List Byte

def Hasher.update (h : Hasher) (chunk : List Byte) : Hasher := ⟨h.alg, h.buf ++ chunk⟩

def Hasher.hexdigest (h : Hasher) : String := toHex (h.alg.digestBytes h.buf)

/-- The read loop of `_hash_file`:
`while chunk := f.read(8192): hasher.update(chunk)`.
`fuel` bounds the iterations; every iteration consumes at least one byte of
the remaining input, so `fuel = length` is always enough. -/
def readLoop : Nat → Hasher → List Byte → Hasher
  | 0, h, _ => h
  | _, h, [] => h
  | fuel + 1, h, b :: rest =>
    readLoop fuel (h.update ((b :: rest).take 8192)) ((b :: rest).drop 8192)

/-- Python `str.startswith`: character-list prefix test. -/
def pyStartswith (s marker : String) : Bool := marker.data.isPrefixOf s.data

/-- Lexicographic comparison of character lists by code point, the order
Python `sorted` uses on strings. -/
def charsLe : List Char → List Char → Bool
  | [], _ => true
  | _ :: _, [] => false
  | a :: as, b :: bs =>
    if a.toNat < b.toNat then true
    else if b.toNat < a.toNat then false
    else charsLe as bs

def pyLe (a b : String) : Bool := charsLe a.data b.data

def errorFileMsg : String := "Error: Failed to hash file."

/-- `_hash_file`: a readable file (`some` content) is digested through the
chunked read loop; an unreadable file (`none`, i.e. `OSError`) yields the
error-marker string. -/
def hash_file (alg : Algorithm) (content : Option (List Byte)) : String :=
  match content with
  | some bs => (readLoop bs.length ⟨alg, []⟩ bs).hexdigest
  | none => errorFileMsg

/-! ## Directory trees and the walk of `_hash_directory`

A directory entry is a file (with `none` content when reading it raises
`OSError`) or a subdirectory.  `EntryList` is a bespoke list so that all
tree recursion is structural and kernel-reducible. -/

mutual
inductive Entry where
  | file (name : String) (content : Option (List Byte))
  | dir (name : String) (entries : EntryList)
inductive EntryList where
  | nil
  | cons (e : Entry) (rest : EntryList)
end

/-- The files of one directory level, in on-disk order. -/
def levelFiles : EntryList → List (String × Option (List Byte))
  | EntryList.nil => []
  | EntryList.cons (Entry.file n c) rest => (n, c) :: levelFiles rest
  | EntryList.cons (Entry.dir _ _) rest => levelFiles rest

/-- `sorted(files)`: files of a level sorted by name. -/
def sortByName (l : List (String × Option (List Byte))) :
    List (String × Option (List Byte)) :=
  List.insertionSort (fun p q => pyLe p.1 q.1 = true) l

/-- The walk below one level: each subdirectory contributes its own sorted
level followed by its subtrees, in on-disk subdirectory order (the code
does not sort directory names). -/
def walkSubdirs : EntryList → List (String × Option (List Byte))
  | EntryList.nil => []
  | EntryList.cons (Entry.file _ _) rest => walkSubdirs rest
  | EntryList.cons (Entry.dir _ sub) rest =>
    (sortByName (levelFiles sub) ++ walkSubdirs sub) ++ walkSubdirs rest

/-- `os.walk` top-down: the root's files sorted by name, then the subtrees. -/
def walkDir (es : EntryList) : List (String × Option (List Byte)) :=
  sortByName (levelFiles es) ++ walkSubdirs es

/-- The `file_hashes` list collected by `_hash_directory`: each visited
file's `_hash_file` result, kept when it does not start with `"Error"`. -/
def file_hashes (alg : Algorithm) (es : EntryList) : List String :=
  (walkDir es).filterMap (fun p =>
    if pyStartswith (hash_file alg p.2) "Error" then none
    else some (hash_file alg p.2))

/-- The warnings `_hash_directory` logs, one per skipped file. -/
def dirWarnings (alg : Algorithm) (es : EntryList) : List String :=
  (walkDir es).filterMap (fun p =>
    if pyStartswith (hash_file alg p.2) "Error" then
      some ("Skipping " ++ p.1 ++ " due to a hashing error.")
    else none)

/-- `sorted(file_hashes)` over digest strings. -/
def pySorted (l : List String) : List String :=
  List.insertionSort (fun a b => pyLe a b = true) l

/-- `_hash_directory`: hash of the UTF-8 bytes of the concatenation of the
sorted collected file hashes. -/
def hash_directory (alg : Algorithm) (es : EntryList) : String :=
  hexdigest alg (encodeUtf8 (String.join (pySorted (file_hashes alg es))))

/-! ## The entry point `hash_data` -/

/-- What the OS reports about a path: a regular file, a directory, something
else (device node, broken special file), or nonexistent. -/
inductive PathKind where
  | file (content : Option (List Byte))
  | directory (entries : EntryList)
  | other
  | absent

/-- A single-quote character, for the f-string error messages. -/
def quoteMark : String := String.singleton (Char.ofNat 39)

def notFoundMsg (path : String) : String :=
  "Error: The path " ++ quoteMark ++ path ++ quoteMark ++ " does not exist."

def unsupportedAlgMsg (algorithm : String) : String :=
  "Error: Unsupported hashing algorithm " ++ quoteMark ++ algorithm ++ quoteMark ++ "."

def badKindMsg (path : String) : String :=
  "Error: The path " ++ quoteMark ++ path ++ quoteMark ++ " is not a file or directory."

/-- `hash_data`: existence check, then algorithm-support check against
`hashlib.algorithms_available` (modelled by `avail`), then dispatch on the
path kind.  `interp` maps a supported algorithm name to its digest
function (`hashlib.new`). -/
def hash_data (avail : String → Bool) (interp : String → Algorithm)
    (path : String) (kind : PathKind) (algorithm : String) : String :=
  match kind with
  | PathKind.absent => notFoundMsg path
  | _ =>
    if avail algorithm then
      match kind with
      | PathKind.file c => hash_file (interp algorithm) c
      | PathKind.directory es => hash_directory (interp algorithm) es
      | _ => badKindMsg path
    else unsupportedAlgMsg algorithm

/-! ## The Integrity Ledger (`store_hash_in_sqlite`, `check_stored_hashes`)

The SQLite table `file_hashes` is modelled as a list of rows in rowid
order together with the auto-increment counter.  A full-table `SELECT`
on this schema scans in rowid order, i.e. returns the list as stored. -/

structure LedgerRecord where
  rowId : Nat
  path : String
  hash_value : String
  algorithm : String
  created_at : Nat
deriving DecidableEq, Repr

structure Store where
  records : List LedgerRecord
  nextId : Nat
deriving DecidableEq, Repr

def Store.empty : Store := ⟨[], 1⟩

/-- One committed `INSERT`: the row gets the auto-increment id. -/
def Store.insertRecord (s : Store) (p hv alg : String) (t : Nat) : Store :=
  ⟨s.records ++ [⟨s.nextId, p, hv, alg, t⟩], s.nextId + 1⟩

def applyInserts (s : Store) : List (String × String × String × Nat) → Store
  | [] => s
  | (p, hv, alg, t) :: rest => applyInserts (s.insertRecord p hv alg t) rest

/-- `check_stored_hashes`: `SELECT id, path, hash_value, algorithm,
created_at FROM file_hashes` — a full table scan in rowid order. -/
def check_stored_hashes (s : Store) : List LedgerRecord := s.records

/-- The observable connection-level actions of `store_hash_in_sqlite`. -/
inductive DbAction where
  | connect | createTable | commit | insertRow | rollback | close | logError | logInfo
deriving DecidableEq, Repr

/-- The environment a persist attempt runs in: the durable store, and
whether connecting and writing succeed. -/
structure SqliteEnv where
  store : Store
  connectOk : Bool
  insertOk : Bool

structure PersistOutcome where
  store : Store
  trace : List DbAction
  raised : Bool
deriving Repr

/-- `store_hash_in_sqlite`: connect, create the table, insert, commit; on
`sqlite3.Error` the handler logs the error, rolls back when a connection
exists, and the `finally` block closes it — the exception is caught and
the function returns normally (`raised` records whether an exception
escapes to the caller). -/
def store_hash_in_sqlite (env : SqliteEnv) (p hv alg : String) (now : Nat) :
    PersistOutcome :=
  if env.connectOk then
    if env.insertOk then
      { store := env.store.insertRecord p hv alg now,
        trace := [DbAction.connect, DbAction.createTable, DbAction.commit,
                  DbAction.insertRow, DbAction.commit, DbAction.logInfo, DbAction.close],
        raised := false }
    else
      { store := env.store,
        trace := [DbAction.connect, DbAction.createTable, DbAction.commit,
                  DbAction.insertRow, DbAction.logError, DbAction.rollback, DbAction.close],
        raised := false }
  else
    { store := env.store,
      trace := [DbAction.connect, DbAction.logError],
      raised := false }

/-! ## Derived and spec-side definitions used by the claims -/

/-- A string of lowercase hexadecimal characters only. -/
def isLowerHexStr (s : String) : Bool :=
  s.data.all (fun c =>
    decide ((48 ≤ c.toNat ∧ c.toNat ≤ 57) ∨ (97 ≤ c.toNat ∧ c.toNat ≤ 102)))

/-- Spec-side collection: every file of the subtree, in raw tree order
(no per-level name sorting). -/
def rawFiles : EntryList → List (String × Option (List Byte))
  | EntryList.nil => []
  | EntryList.cons (Entry.file n c) rest => (n, c) :: rawFiles rest
  | EntryList.cons (Entry.dir _ sub) rest => rawFiles sub ++ rawFiles rest

/-- Spec-side: the digest string of every successfully-hashed file of the
subtree (an unreadable file contributes nothing), in raw tree order. -/
def specCollectDigests (alg : Algorithm) : EntryList → List String
  | EntryList.nil => []
  | EntryList.cons (Entry.file _ (some bs)) rest =>
    hexdigest alg bs :: specCollectDigests alg rest
  | EntryList.cons (Entry.file _ none) rest => specCollectDigests alg rest
  | EntryList.cons (Entry.dir _ sub) rest =>
    specCollectDigests alg sub ++ specCollectDigests alg rest

/-- Spec-side directory digest: collect every successfully-hashed file's
digest from the whole subtree, sort that flat sequence lexicographically,
concatenate, and hash the result with the same algorithm. -/
def hashDirectorySpec (alg : Algorithm) (es : EntryList) : String :=
  hexdigest alg (encodeUtf8 (String.join (pySorted (specCollectDigests alg es))))

/-- Drop every unreadable file from the tree. -/
def removeUnreadable : EntryList → EntryList
  | EntryList.nil => EntryList.nil
  | EntryList.cons (Entry.file n (some c)) rest =>
    EntryList.cons (Entry.file n (some c)) (removeUnreadable rest)
  | EntryList.cons (Entry.file _ none) rest => removeUnreadable rest
  | EntryList.cons (Entry.dir n sub) rest =>
    EntryList.cons (Entry.dir n (removeUnreadable sub)) (removeUnreadable rest)

/-- Number of unreadable files anywhere beneath the tree. -/
def unreadableCount : EntryList → Nat
  | EntryList.nil => 0
  | EntryList.cons (Entry.file _ none) rest => 1 + unreadableCount rest
  | EntryList.cons (Entry.file _ (some _)) rest => unreadableCount rest
  | EntryList.cons (Entry.dir _ sub) rest => unreadableCount sub + unreadableCount rest

/-- Number of files anywhere beneath the tree. -/
def fileCount : EntryList → Nat
  | EntryList.nil => 0
  | EntryList.cons (Entry.file _ _) rest => 1 + fileCount rest
  | EntryList.cons (Entry.dir _ sub) rest => fileCount sub + fileCount rest

/-- Every file anywhere beneath the tree is unreadable. -/
def allFilesUnreadable : EntryList → Bool
  | EntryList.nil => true
  | EntryList.cons (Entry.file _ c) rest => c.isNone && allFilesUnreadable rest
  | EntryList.cons (Entry.dir _ sub) rest => allFilesUnreadable sub && allFilesUnreadable rest

/-! ## Order properties of the Python string comparison -/

theorem charsLe_total : ∀ as bs : List Char, charsLe as bs = true ∨ charsLe bs as = true
  | [], _ => Or.inl (by simp [charsLe])
  | _ :: _, [] => Or.inr (by simp [charsLe])
  | a :: as, b :: bs => by
    by_cases h1 : a.toNat < b.toNat
    · exact Or.inl (by simp [charsLe, h1])
    · by_cases h2 : b.toNat < a.toNat
      · exact Or.inr (by simp [charsLe, h1, h2])
      · rcases charsLe_total as bs with h | h
        · exact Or.inl (by simp [charsLe, h1, h2, h])
        · exact Or.inr (by simp [charsLe, h1, h2, h])

theorem charsLe_trans : ∀ as bs cs : List Char,
    charsLe as bs = true → charsLe bs cs = true → charsLe as cs = true
  | [], _, cs => by intro _ _; simp [charsLe]
  | _ :: _, [], _ => by intro h _; simp [charsLe] at h
  | _ :: _, _ :: _, [] => by intro _ h; simp [charsLe] at h
  | a :: as, b :: bs, c :: cs => by
    intro h1 h2
    by_cases hab : a.toNat < b.toNat
    · by_cases hbc : b.toNat < c.toNat
      · simp [charsLe, show a.toNat < c.toNat by omega]
      · by_cases hcb : c.toNat < b.toNat
        · simp [charsLe, hbc, hcb] at h2
        · simp [charsLe, show a.toNat < c.toNat by omega]
    · by_cases hba : b.toNat < a.toNat
      · simp [charsLe, hab, hba] at h1
      · simp [charsLe, hab, hba] at h1
        by_cases hbc : b.toNat < c.toNat
        · simp [charsLe, show a.toNat < c.toNat by omega]
        · by_cases hcb : c.toNat < b.toNat
          · simp [charsLe, hbc, hcb] at h2
          · simp [charsLe, hbc, hcb] at h2
            simp [charsLe, show ¬ a.toNat < c.toNat by omega,
              show ¬ c.toNat < a.toNat by omega]
            exact charsLe_trans as bs cs h1 h2

theorem charsLe_antisymm : ∀ as bs : List Char,
    charsLe as bs = true → charsLe bs as = true → as = bs
  | [], [] => fun _ _ => rfl
  | [], _ :: _ => by intro _ h; simp [charsLe] at h
  | _ :: _, [] => by intro h _; simp [charsLe] at h
  | a :: as, b :: bs => by
    intro h1 h2
    by_cases hab : a.toNat < b.toNat
    · simp [charsLe, show ¬ b.toNat < a.toNat by omega, hab] at h2
    · by_cases hba : b.toNat < a.toNat
      · simp [charsLe, hab, hba] at h1
      · have hnat : a.toNat = b.toNat := by omega
        have hc : a = b :=
          Char.eq_of_val_eq (UInt32.eq_of_toBitVec_eq (BitVec.eq_of_toNat_eq hnat))
        simp [charsLe, hab, hba] at h1 h2
        rw [hc, charsLe_antisymm as bs h1 h2]

instance : IsTotal String (fun a b => pyLe a b = true) :=
  ⟨fun a b => charsLe_total a.data b.data⟩

instance : IsTrans String (fun a b => pyLe a b = true) :=
  ⟨fun a b c => charsLe_trans a.data b.data c.data⟩

instance : IsAntisymm String (fun a b => pyLe a b = true) :=
  ⟨fun a b h1 h2 => String.ext (charsLe_antisymm a.data b.data h1 h2)⟩

theorem pySorted_perm (l : List String) : List.Perm (pySorted l) l :=
  List.perm_insertionSort _ l

/-- The sorted digest list, hence the combined digest, depends only on the
multiset of collected digests. -/
theorem pySorted_congr {l1 l2 : List String} (h : List.Perm l1 l2) : pySorted l1 = pySorted l2 :=
  List.eq_of_perm_of_sorted ((pySorted_perm l1).trans (h.trans (pySorted_perm l2).symm))
    (List.sorted_insertionSort _ l1) (List.sorted_insertionSort _ l2)

theorem sortByName_perm (l : List (String × Option (List Byte))) : List.Perm (sortByName l) l :=
  List.perm_insertionSort _ l

/-! ## The chunked read loop -/

/-- Feeding a byte string through the 8192-byte read loop accumulates
exactly that byte string in the hasher. -/
theorem readLoop_eq : ∀ (fuel : Nat) (h : Hasher) (bs : List Byte),
    bs.length ≤ fuel → readLoop fuel h bs = ⟨h.alg, h.buf ++ bs⟩
  | 0, h, bs => by
    intro hle
    have hnil : bs = [] := List.eq_nil_of_length_eq_zero (Nat.le_zero.mp hle)
    subst hnil
    simp [readLoop]
  | _ + 1, h, [] => by intro _; simp [readLoop]
  | fuel + 1, h, b :: rest => by
    intro hle
    have hlen : ((b :: rest).drop 8192).length ≤ fuel := by
      simp only [List.length_drop, List.length_cons]
      simp only [List.length_cons] at hle
      omega
    rw [readLoop, readLoop_eq fuel _ _ hlen]
    simp [Hasher.update, List.take_append_drop]

/-- `_hash_file` on a readable file equals the one-shot digest of its
entire byte sequence. -/
theorem hash_file_readable (alg : Algorithm) (bs : List Byte) :
    hash_file alg (some bs) = hexdigest alg bs := by
  simp [hash_file, readLoop_eq bs.length ⟨alg, []⟩ bs (Nat.le_refl _),
    Hasher.hexdigest, hexdigest]

/-! ## Success digests are lowercase hex and never carry the error marker -/

theorem hexChar_isHexDigit (n : Nat) (h : n < 16) :
    (48 ≤ (hexChar n).toNat ∧ (hexChar n).toNat ≤ 57) ∨
    (97 ≤ (hexChar n).toNat ∧ (hexChar n).toNat ≤ 102) := by
  interval_cases n <;> decide

theorem hexChar_ne_E (n : Nat) (h : n < 16) : hexChar n ≠ 'E' := by
  interval_cases n <;> decide

theorem toHex_isLowerHex (bs : List Byte) : isLowerHexStr (toHex bs) = true := by
  simp only [isLowerHexStr, toHex, List.all_eq_true]
  intro c hc
  simp only [List.mem_flatten, List.mem_map] at hc
  obtain ⟨l, ⟨b, _, rfl⟩, hcl⟩ := hc
  simp only [byteHex, List.mem_cons, List.not_mem_nil, or_false] at hcl
  rcases hcl with rfl | rfl
  · exact decide_eq_true (hexChar_isHexDigit _ (Nat.mod_lt _ (by norm_num)))
  · exact decide_eq_true (hexChar_isHexDigit _ (Nat.mod_lt _ (by norm_num)))

theorem toHex_no_error_marker (bs : List Byte) :
    pyStartswith (toHex bs) "Error" = false := by
  cases bs with
  | nil => decide
  | cons b rest =>
    have hdata : "Error".data = ['E', 'r', 'r', 'o', 'r'] := by decide
    have hne : ('E' == hexChar (b / 16 % 16)) = false :=
      beq_eq_false_iff_ne.mpr (Ne.symm (hexChar_ne_E _ (Nat.mod_lt _ (by norm_num))))
    simp [pyStartswith, toHex, byteHex, hdata, List.isPrefixOf, hne]

theorem hash_file_readable_no_marker (alg : Algorithm) (bs : List Byte) :
    pyStartswith (hash_file alg (some bs)) "Error" = false := by
  rw [hash_file_readable]
  exact toHex_no_error_marker _

theorem hash_file_unreadable (alg : Algorithm) :
    hash_file alg none = errorFileMsg ∧ pyStartswith errorFileMsg "Error" = true :=
  ⟨rfl, by decide⟩

/-! ## The walk visits exactly the files of the subtree -/

theorem level_walk_perm : ∀ es : EntryList,
    List.Perm (levelFiles es ++ walkSubdirs es) (rawFiles es)
  | EntryList.nil => by simp [levelFiles, walkSubdirs, rawFiles]
  | EntryList.cons (Entry.file n c) rest => by
    simp only [levelFiles, walkSubdirs, rawFiles, List.cons_append]
    exact (level_walk_perm rest).cons _
  | EntryList.cons (Entry.dir n sub) rest => by
    have h1 := level_walk_perm sub
    have h2 := level_walk_perm rest
    have h3 := sortByName_perm (levelFiles sub)
    rw [List.perm_iff_count] at h1 h2 h3 ⊢
    intro a
    have c1 := h1 a
    have c2 := h2 a
    have c3 := h3 a
    simp only [levelFiles, walkSubdirs, rawFiles, List.count_append] at c1 c2 c3 ⊢
    omega

/-- The two-level walk of `_hash_directory` is a permutation of the raw
file collection of the subtree. -/
theorem walkDir_perm_rawFiles (es : EntryList) :
    List.Perm (walkDir es) (rawFiles es) :=
  ((sortByName_perm (levelFiles es)).append_right (walkSubdirs es)).trans
    (level_walk_perm es)

/-! ## Collected digests -/

theorem errorFileMsg_marker : pyStartswith errorFileMsg "Error" = true := by decide

theorem hash_file_none (alg : Algorithm) : hash_file alg none = errorFileMsg := rfl

theorem hexdigest_no_marker (alg : Algorithm) (bs : List Byte) :
    pyStartswith (hexdigest alg bs) "Error" = false :=
  toHex_no_error_marker _

theorem filterMap_rawFiles (alg : Algorithm) : ∀ es : EntryList,
    (rawFiles es).filterMap (fun p =>
      if pyStartswith (hash_file alg p.2) "Error" then none
      else some (hash_file alg p.2)) = specCollectDigests alg es
  | EntryList.nil => rfl
  | EntryList.cons (Entry.file n (some bs)) rest => by
    simp only [rawFiles, specCollectDigests, List.filterMap_cons,
      hash_file_readable, hexdigest_no_marker, Bool.false_eq_true, if_false]
    rw [filterMap_rawFiles alg rest]
  | EntryList.cons (Entry.file n none) rest => by
    simp only [rawFiles, specCollectDigests, List.filterMap_cons, hash_file_none,
      errorFileMsg_marker, if_true]
    exact filterMap_rawFiles alg rest
  | EntryList.cons (Entry.dir n sub) rest => by
    simp only [rawFiles, specCollectDigests, List.filterMap_append]
    rw [filterMap_rawFiles alg sub, filterMap_rawFiles alg rest]

/-- The collected `file_hashes` list is a permutation of the spec-side
successful-digest collection. -/
theorem file_hashes_perm (alg : Algorithm) (es : EntryList) :
    List.Perm (file_hashes alg es) (specCollectDigests alg es) := by
  have h := List.Perm.filterMap (fun p : String × Option (List Byte) =>
    if pyStartswith (hash_file alg p.2) "Error" then none
    else some (hash_file alg p.2)) (walkDir_perm_rawFiles es)
  rw [filterMap_rawFiles alg es] at h
  exact h

theorem hash_directory_eq_spec (alg : Algorithm) (es : EntryList) :
    hash_directory alg es = hashDirectorySpec alg es := by
  unfold hash_directory hashDirectorySpec
  rw [pySorted_congr (file_hashes_perm alg es)]

/-! ## Skipped files and warnings -/

theorem specCollect_removeUnreadable (alg : Algorithm) : ∀ es : EntryList,
    specCollectDigests alg (removeUnreadable es) = specCollectDigests alg es
  | EntryList.nil => rfl
  | EntryList.cons (Entry.file n (some c)) rest => by
    simp only [removeUnreadable, specCollectDigests]
    rw [specCollect_removeUnreadable alg rest]
  | EntryList.cons (Entry.file n none) rest => by
    simp only [removeUnreadable, specCollectDigests]
    exact specCollect_removeUnreadable alg rest
  | EntryList.cons (Entry.dir n sub) rest => by
    simp only [removeUnreadable, specCollectDigests]
    rw [specCollect_removeUnreadable alg sub, specCollect_removeUnreadable alg rest]

theorem warnings_rawFiles (alg : Algorithm) : ∀ es : EntryList,
    ((rawFiles es).filterMap (fun p =>
      if pyStartswith (hash_file alg p.2) "Error" then
        some ("Skipping " ++ p.1 ++ " due to a hashing error.")
      else none)).length = unreadableCount es
  | EntryList.nil => rfl
  | EntryList.cons (Entry.file n (some c)) rest => by
    simp only [rawFiles, unreadableCount, List.filterMap_cons, hash_file_readable,
      hexdigest_no_marker, Bool.false_eq_true, if_false]
    exact warnings_rawFiles alg rest
  | EntryList.cons (Entry.file n none) rest => by
    simp only [rawFiles, unreadableCount, List.filterMap_cons, hash_file_none,
      errorFileMsg_marker, if_true, List.length_cons]
    rw [warnings_rawFiles alg rest]
    omega
  | EntryList.cons (Entry.dir n sub) rest => by
    simp only [rawFiles, unreadableCount, List.filterMap_append, List.length_append]
    rw [warnings_rawFiles alg sub, warnings_rawFiles alg rest]

theorem dirWarnings_length (alg : Algorithm) (es : EntryList) :
    (dirWarnings alg es).length = unreadableCount es := by
  unfold dirWarnings
  rw [(List.Perm.filterMap _ (walkDir_perm_rawFiles es)).length_eq]
  exact warnings_rawFiles alg es

/-! ## Empty and all-unreadable directories -/

theorem specCollect_nil_of_noFiles (alg : Algorithm) : ∀ es : EntryList,
    fileCount es = 0 → specCollectDigests alg es = []
  | EntryList.nil => fun _ => rfl
  | EntryList.cons (Entry.file n c) rest => by
    intro h
    simp only [fileCount] at h
    omega
  | EntryList.cons (Entry.dir n sub) rest => by
    intro h
    simp only [fileCount] at h
    simp only [specCollectDigests]
    rw [specCollect_nil_of_noFiles alg sub (by omega),
      specCollect_nil_of_noFiles alg rest (by omega)]
    rfl

theorem specCollect_nil_of_allUnreadable (alg : Algorithm) : ∀ es : EntryList,
    allFilesUnreadable es = true → specCollectDigests alg es = []
  | EntryList.nil => fun _ => rfl
  | EntryList.cons (Entry.file n (some c)) rest => by
    intro h
    simp [allFilesUnreadable] at h
  | EntryList.cons (Entry.file n none) rest => by
    intro h
    simp only [allFilesUnreadable, Option.isNone_none, Bool.true_and] at h
    exact specCollect_nil_of_allUnreadable alg rest h
  | EntryList.cons (Entry.dir n sub) rest => by
    intro h
    simp only [allFilesUnreadable, Bool.and_eq_true] at h
    simp only [specCollectDigests]
    rw [specCollect_nil_of_allUnreadable alg sub h.1,
      specCollect_nil_of_allUnreadable alg rest h.2]
    rfl

/-! ## Error-message facts -/

theorem startswith_error_of_lit (lit tail : List Char)
    (h : "Error".data.isPrefixOf lit = true) :
    "Error".data.isPrefixOf (lit ++ tail) = true := by
  rw [List.isPrefixOf_iff_prefix] at h ⊢
  exact h.trans (List.prefix_append _ _)

theorem notFoundMsg_marker (p : String) : pyStartswith (notFoundMsg p) "Error" = true := by
  unfold pyStartswith notFoundMsg
  simp only [String.data_append, List.append_assoc]
  exact startswith_error_of_lit _ _ (by decide)

theorem unsupportedAlgMsg_marker (a : String) :
    pyStartswith (unsupportedAlgMsg a) "Error" = true := by
  unfold pyStartswith unsupportedAlgMsg
  simp only [String.data_append, List.append_assoc]
  exact startswith_error_of_lit _ _ (by decide)

theorem badKindMsg_marker (p : String) : pyStartswith (badKindMsg p) "Error" = true := by
  unfold pyStartswith badKindMsg
  simp only [String.data_append, List.append_assoc]
  exact startswith_error_of_lit _ _ (by decide)

theorem notFound_ne_unsupported (p a : String) : notFoundMsg p ≠ unsupportedAlgMsg a := by
  intro h
  have h8 := congrArg (fun s : String => s.data.take 8) h
  simp only [notFoundMsg, unsupportedAlgMsg, String.data_append, List.append_assoc] at h8
  rw [List.take_append_of_le_length (by decide),
    List.take_append_of_le_length (by decide)] at h8
  exact absurd h8 (by decide)

/-! ## Ledger invariants -/

def recPayload (r : LedgerRecord) : String × String × String × Nat :=
  (r.path, r.hash_value, r.algorithm, r.created_at)

theorem applyInserts_payloads : ∀ (ops : List (String × String × String × Nat)) (s : Store),
    (applyInserts s ops).records.map recPayload = s.records.map recPayload ++ ops
  | [], s => by simp [applyInserts]
  | (p, hv, alg, t) :: rest, s => by
    simp only [applyInserts]
    rw [applyInserts_payloads rest]
    simp [Store.insertRecord, recPayload]

theorem applyInserts_sorted_ids :
    ∀ (ops : List (String × String × String × Nat)) (s : Store),
    (∀ r ∈ s.records, r.rowId < s.nextId) →
    List.Pairwise (fun a b => a.rowId < b.rowId) s.records →
    List.Pairwise (fun a b => a.rowId < b.rowId) (applyInserts s ops).records
  | [], s => fun _ hp => hp
  | (p, hv, alg, t) :: rest, s => by
    intro hinv hp
    simp only [applyInserts]
    apply applyInserts_sorted_ids rest
    · intro r hr
      simp only [Store.insertRecord, List.mem_append, List.mem_singleton] at hr
      rcases hr with hr | rfl
      · exact Nat.lt_succ_of_lt (hinv r hr)
      · exact Nat.lt_succ_self _
    · simp only [Store.insertRecord]
      rw [List.pairwise_append]
      refine ⟨hp, List.pairwise_singleton _ _, ?_⟩
      intro a ha b hb
      simp only [List.mem_singleton] at hb
      subst hb
      exact hinv a ha

/-! ## Claims -/

/-- C1: For every directory tree and algorithm, the digest `_hash_directory`
returns equals the hash, under the same algorithm, of the string obtained by
collecting every successfully-hashed file's digest string from the whole
subtree, sorting that flat sequence of digest strings lexicographically, and
concatenating them. -/
theorem c1_directory_digest_is_sorted_concat_hash (alg : Algorithm) (es : EntryList) :
    hash_directory alg es =
      hexdigest alg (encodeUtf8 (String.join (pySorted (specCollectDigests alg es)))) :=
  hash_directory_eq_spec alg es

/-- C2: any two directory trees whose multisets of successfully-computed
leaf file digests are equal (e.g. trees differing only by renaming, sibling
reordering, or nesting of content-identical files) get the same directory
digest under the same algorithm. -/
theorem c2_digest_depends_only_on_multiset (alg : Algorithm) (es1 es2 : EntryList)
    (h : (specCollectDigests alg es1 : Multiset String) =
         (specCollectDigests alg es2 : Multiset String)) :
    hash_directory alg es1 = hash_directory alg es2 := by
  rw [hash_directory_eq_spec, hash_directory_eq_spec]
  unfold hashDirectorySpec
  rw [pySorted_congr (Multiset.coe_eq_coe.mp h)]

/-- Witness for C2: a two-file flat tree versus a renamed, reordered and
nested tree with the same contents. -/
theorem c2_witness :
    ((specCollectDigests ⟨fun bs => [bs.length % 256]⟩
        (EntryList.cons (Entry.file "a" (some [104, 105]))
          (EntryList.cons (Entry.file "b" (some [])) EntryList.nil)) : Multiset String) =
      (specCollectDigests ⟨fun bs => [bs.length % 256]⟩
        (EntryList.cons (Entry.file "y" (some []))
          (EntryList.cons (Entry.dir "d"
            (EntryList.cons (Entry.file "z" (some [104, 105])) EntryList.nil))
            EntryList.nil)) : Multiset String)) ∧
    hash_directory ⟨fun bs => [bs.length % 256]⟩
        (EntryList.cons (Entry.file "a" (some [104, 105]))
          (EntryList.cons (Entry.file "b" (some [])) EntryList.nil)) =
      hash_directory ⟨fun bs => [bs.length % 256]⟩
        (EntryList.cons (Entry.file "y" (some []))
          (EntryList.cons (Entry.dir "d"
            (EntryList.cons (Entry.file "z" (some [104, 105])) EntryList.nil))
            EntryList.nil)) := by
  refine ⟨by decide, c2_digest_depends_only_on_multiset _ _ _ (by decide)⟩

/-- C5: a file that fails to hash is skipped with one recorded warning per
failing file; its digest is excluded — the directory digest equals that of
the tree with the unreadable files removed — and the computation still
returns a digest for the remaining files. -/
theorem c5_failed_files_skipped (alg : Algorithm) (es : EntryList) :
    hash_directory alg es = hash_directory alg (removeUnreadable es) ∧
    (dirWarnings alg es).length = unreadableCount es := by
  constructor
  · rw [hash_directory_eq_spec, hash_directory_eq_spec]
    unfold hashDirectorySpec
    rw [specCollect_removeUnreadable]
  · exact dirWarnings_length alg es

/-- C6: a directory with no files anywhere beneath it hashes to the hash of
the empty string, and so does a directory in which every contained file
fails to hash — the two cases are indistinguishable at the digest level. -/
theorem c6_empty_and_all_unreadable (alg : Algorithm) (es1 es2 : EntryList)
    (h1 : fileCount es1 = 0) (h2 : allFilesUnreadable es2 = true) :
    hash_directory alg es1 = hexdigest alg (encodeUtf8 "") ∧
    hash_directory alg es2 = hexdigest alg (encodeUtf8 "") := by
  constructor
  · rw [hash_directory_eq_spec]
    unfold hashDirectorySpec
    rw [specCollect_nil_of_noFiles alg es1 h1]
    rfl
  · rw [hash_directory_eq_spec]
    unfold hashDirectorySpec
    rw [specCollect_nil_of_allUnreadable alg es2 h2]
    rfl

/-- Witness for C6: the empty directory, and a directory holding a single
unreadable file. -/
theorem c6_witness :
    (fileCount EntryList.nil = 0 ∧
      allFilesUnreadable (EntryList.cons (Entry.file "f" none) EntryList.nil) = true) ∧
    (hash_directory ⟨fun bs => [bs.length % 256]⟩ EntryList.nil =
        hexdigest ⟨fun bs => [bs.length % 256]⟩ (encodeUtf8 "") ∧
      hash_directory ⟨fun bs => [bs.length % 256]⟩
          (EntryList.cons (Entry.file "f" none) EntryList.nil) =
        hexdigest ⟨fun bs => [bs.length % 256]⟩ (encodeUtf8 "")) :=
  ⟨⟨by decide, by decide⟩,
    c6_empty_and_all_unreadable ⟨fun bs => [bs.length % 256]⟩ EntryList.nil
      (EntryList.cons (Entry.file "f" none) EntryList.nil) (by decide) (by decide)⟩

/-- C10: every digest on the success path of `_hash_file` is a lowercase
hexadecimal string and never starts with "Error", so the string-marker
discrimination of `_hash_directory` keeps exactly the successfully computed
digests and never drops a valid one. -/
theorem c10_marker_never_misclassifies (alg : Algorithm) :
    (∀ bs : List Byte, isLowerHexStr (hash_file alg (some bs)) = true ∧
      pyStartswith (hash_file alg (some bs)) "Error" = false) ∧
    (∀ es : EntryList, file_hashes alg es = (walkDir es).filterMap (fun p =>
      Option.map (fun c => hash_file alg (some c)) p.2)) := by
  constructor
  · intro bs
    refine ⟨?_, hash_file_readable_no_marker alg bs⟩
    rw [hash_file_readable]
    exact toHex_isLowerHex _
  · intro es
    unfold file_hashes
    congr 1
    funext p
    rcases p with ⟨n, c⟩
    cases c with
    | none => simp [hash_file_none, errorFileMsg_marker]
    | some content => simp [hash_file_readable_no_marker]

/-- C4 counterexample: at a concrete nonexistent path, `hash_data` returns
the failure as an ordinary successfully-returned string that starts with the
error marker — not a typed failure. -/
theorem c4_counterexample :
    hash_data (fun _ => true) (fun _ => sha256) "missing" PathKind.absent "sha256" =
      notFoundMsg "missing" ∧
    pyStartswith (hash_data (fun _ => true) (fun _ => sha256) "missing" PathKind.absent
      "sha256") "Error" = true :=
  ⟨rfl, by decide⟩

/-- C4 amended: nonexistent paths, unsupported algorithms and unsupported
path kinds are surfaced to the caller as their respective error-marker
strings (all starting with "Error"), and an unsupported algorithm computes
nothing — the result does not depend on the digest functions. -/
theorem c4_failures_as_error_strings (avail : String → Bool) (interp : String → Algorithm)
    (path : String) (kind : PathKind) (algorithm : String) :
    (kind = PathKind.absent →
      hash_data avail interp path kind algorithm = notFoundMsg path) ∧
    (kind ≠ PathKind.absent → avail algorithm = false →
      hash_data avail interp path kind algorithm = unsupportedAlgMsg algorithm ∧
      (∀ interp2 : String → Algorithm,
        hash_data avail interp2 path kind algorithm = unsupportedAlgMsg algorithm)) ∧
    (kind = PathKind.other → avail algorithm = true →
      hash_data avail interp path kind algorithm = badKindMsg path) ∧
    pyStartswith (notFoundMsg path) "Error" = true ∧
    pyStartswith (unsupportedAlgMsg algorithm) "Error" = true ∧
    pyStartswith (badKindMsg path) "Error" = true := by
  refine ⟨?_, ?_, ?_, notFoundMsg_marker path, unsupportedAlgMsg_marker algorithm,
    badKindMsg_marker path⟩
  · intro hk
    subst hk
    rfl
  · intro hk ha
    refine ⟨?_, fun interp2 => ?_⟩ <;>
      cases kind with
      | absent => exact absurd rfl hk
      | file c => simp [hash_data, ha]
      | directory es => simp [hash_data, ha]
      | other => simp [hash_data, ha]
  · intro hk ha
    subst hk
    simp [hash_data, ha]

/-- Witness for C4 amended: an unsupported algorithm on an existing
non-file non-directory path, and a nonexistent path. -/
theorem c4_witness :
    hash_data (fun _ => false) (fun _ => sha256) "p" PathKind.other "md0" =
      unsupportedAlgMsg "md0" ∧
    hash_data (fun _ => false) (fun _ => sha256) "q" PathKind.absent "md0" =
      notFoundMsg "q" :=
  ⟨((c4_failures_as_error_strings (fun _ => false) (fun _ => sha256) "p" PathKind.other
      "md0").2.1 (fun hx => PathKind.noConfusion hx) rfl).1,
    (c4_failures_as_error_strings (fun _ => false) (fun _ => sha256) "q" PathKind.absent
      "md0").1 rfl⟩

/-- C9: `hash_data` checks existence before algorithm support, so a
nonexistent path combined with an unsupported algorithm yields the NotFound
error, not the UnsupportedAlgorithm error, and neither the algorithm name
nor the supported set is ever consulted for a nonexistent path. -/
theorem c9_notfound_before_algorithm (avail : String → Bool) (interp : String → Algorithm)
    (path algorithm : String) (h : avail algorithm = false) :
    hash_data avail interp path PathKind.absent algorithm = notFoundMsg path ∧
    hash_data avail interp path PathKind.absent algorithm ≠ unsupportedAlgMsg algorithm ∧
    (∀ (avail2 : String → Bool) (interp2 : String → Algorithm) (alg2 : String),
      hash_data avail2 interp2 path PathKind.absent alg2 = notFoundMsg path) :=
  ⟨rfl, fun hx => notFound_ne_unsupported path algorithm hx, fun _ _ _ => rfl⟩

/-- Witness for C9: the unsupported name "md0" on a nonexistent path. -/
theorem c9_witness :
    ((fun _ : String => false) "md0" = false) ∧
    hash_data (fun _ => false) (fun _ => sha256) "nope" PathKind.absent "md0" =
      notFoundMsg "nope" :=
  ⟨rfl, (c9_notfound_before_algorithm (fun _ => false) (fun _ => sha256) "nope" "md0"
    rfl).1⟩

/-- C7: `check_stored_hashes` returns every stored record in insertion
order with strictly ascending assigned ids, and an empty store yields an
empty sequence, not a failure. -/
theorem c7_list_digests_insertion_order (ops : List (String × String × String × Nat)) :
    (check_stored_hashes (applyInserts Store.empty ops)).map recPayload = ops ∧
    List.Pairwise (fun a b => a.rowId < b.rowId)
      (check_stored_hashes (applyInserts Store.empty ops)) ∧
    check_stored_hashes Store.empty = [] := by
  refine ⟨?_, ?_, rfl⟩
  · show (applyInserts Store.empty ops).records.map recPayload = ops
    rw [applyInserts_payloads]
    rfl
  · exact applyInserts_sorted_ids ops Store.empty
      (fun r hr => absurd hr (List.not_mem_nil r)) List.Pairwise.nil

/-- C8 counterexample: with a failing insert, the `sqlite3.Error` is caught
inside `store_hash_in_sqlite` — the failure does not surface to the
caller. -/
theorem c8_counterexample :
    (SqliteEnv.mk Store.empty true false).insertOk = false ∧
    ¬ (store_hash_in_sqlite ⟨Store.empty, true, false⟩ "p" "h" "sha256" 0).raised = true :=
  ⟨rfl, by decide⟩

/-- C8 amended: on a store failure the error is logged and swallowed — the
function returns normally to the caller — a rollback is performed before the
connection is released when a connection exists, and the ledger's prior
record count is unchanged. -/
theorem c8_store_failure_rollback (env : SqliteEnv) (p hv alg : String) (now : Nat) :
    (env.connectOk = true → env.insertOk = false →
      (store_hash_in_sqlite env p hv alg now).store = env.store ∧
      DbAction.logError ∈ (store_hash_in_sqlite env p hv alg now).trace ∧
      List.Sublist [DbAction.rollback, DbAction.close]
        (store_hash_in_sqlite env p hv alg now).trace ∧
      (store_hash_in_sqlite env p hv alg now).raised = false) ∧
    (env.connectOk = false →
      (store_hash_in_sqlite env p hv alg now).store = env.store ∧
      DbAction.logError ∈ (store_hash_in_sqlite env p hv alg now).trace ∧
      (store_hash_in_sqlite env p hv alg now).raised = false) := by
  constructor
  · intro hc hi
    simp only [store_hash_in_sqlite, hc, hi, Bool.false_eq_true, if_true, if_false]
    refine ⟨?_, ?_, ?_, ?_⟩ <;> first | rfl | decide
  · intro hc
    simp only [store_hash_in_sqlite, hc, Bool.false_eq_true, if_false]
    refine ⟨?_, ?_, ?_⟩ <;> first | rfl | decide

/-- Witness for C8 amended: a failing insert on a store with prior
content. -/
theorem c8_witness :
    (store_hash_in_sqlite ⟨⟨[⟨1, "x", "y", "z", 0⟩], 2⟩, true, false⟩ "p" "h" "a" 7).store =
      ⟨[⟨1, "x", "y", "z", 0⟩], 2⟩ ∧
    DbAction.logError ∈
      (store_hash_in_sqlite ⟨⟨[⟨1, "x", "y", "z", 0⟩], 2⟩, true, false⟩ "p" "h" "a" 7).trace ∧
    List.Sublist [DbAction.rollback, DbAction.close]
      (store_hash_in_sqlite ⟨⟨[⟨1, "x", "y", "z", 0⟩], 2⟩, true, false⟩ "p" "h" "a" 7).trace ∧
    (store_hash_in_sqlite ⟨⟨[⟨1, "x", "y", "z", 0⟩], 2⟩, true, false⟩ "p" "h" "a" 7).raised =
      false :=
  (c8_store_failure_rollback ⟨⟨[⟨1, "x", "y", "z", 0⟩], 2⟩, true, false⟩ "p" "h" "a" 7).1
    rfl rfl

set_option maxRecDepth 10000

/-- C3: `_hash_file` reads a file in fixed 8192-byte chunks fed into a
running hash state and returns a digest equal to hashing the file's entire
byte sequence at once; the file containing "hello" under sha256 yields
2cf24dba5fb0a30e26e83b2ac5b9e29e1b161e5c1fa7425e73043362938b9824, and a
directory containing only that file yields the sha256 of that digest
string. -/
theorem c3_chunked_file_hash_and_scenario :
    (∀ (alg : Algorithm) (bs : List Byte), hash_file alg (some bs) = hexdigest alg bs) ∧
    hash_file sha256 (some (encodeUtf8 "hello")) =
      "2cf24dba5fb0a30e26e83b2ac5b9e29e1b161e5c1fa7425e73043362938b9824" ∧
    hash_directory sha256
        (EntryList.cons (Entry.file "a.txt" (some (encodeUtf8 "hello"))) EntryList.nil) =
      hexdigest sha256
        (encodeUtf8 "2cf24dba5fb0a30e26e83b2ac5b9e29e1b161e5c1fa7425e73043362938b9824") := by
  have hdig : hexdigest sha256 (encodeUtf8 "hello") =
      "2cf24dba5fb0a30e26e83b2ac5b9e29e1b161e5c1fa7425e73043362938b9824" := by decide
  refine ⟨hash_file_readable, ?_, ?_⟩
  · rw [hash_file_readable]
    exact hdig
  · rw [hash_directory_eq_spec]
    unfold hashDirectorySpec
    have hcol : specCollectDigests sha256
        (EntryList.cons (Entry.file "a.txt" (some (encodeUtf8 "hello"))) EntryList.nil) =
        [hexdigest sha256 (encodeUtf8 "hello")] := rfl
    rw [hcol, hdig]
    have hjoin : String.join (pySorted
        ["2cf24dba5fb0a30e26e83b2ac5b9e29e1b161e5c1fa7425e73043362938b9824"]) =
        "2cf24dba5fb0a30e26e83b2ac5b9e29e1b161e5c1fa7425e73043362938b9824" := rfl
    rw [hjoin]
